import Mathlib

/-!
A shallow embedding of the raftwal write-ahead-log storage layer
(`src/raftwal/storage.go`) of this repository, together with theorems that
settle the claims of the specification against it.

Conventions of the embedding:
* Go `uint64` values are modelled as `Nat`; wherever Go's modular arithmetic
  can matter (unsigned subtraction), it is made explicit with `usub`.
* Go byte slices are modelled as `List Nat` (every element a byte value) when
  their contents are produced and inspected, and as total functions
  `Nat → Nat` (byte at offset) for the large memory-mapped regions, paired
  with an explicit length used for the Go slice-bounds checks.
* Fallible Go code is modelled with `Except GoErr`; a Go runtime panic
  (out-of-range slice index, failed x.AssertTrue / y.AssertTrue) is the
  distinguished error `GoErr.panicked`.
-/

namespace Raftwal

set_option maxRecDepth 100000

/-- Errors observable from the modelled Go code.  `compacted` and
`unavailable` are raft.ErrCompacted / raft.ErrUnavailable; `notFound` is
badger.ErrKeyNotFound; `generic` is an `errors.Errorf` value; `panicked`
stands for a Go runtime panic (out-of-range index or failed assertion). -/
inductive GoErr where
  | compacted
  | unavailable
  | notFound
  | generic
  | panicked
deriving DecidableEq, Repr

/-- Constants from `src/raftwal/storage.go` lines 105-128. -/
def maxNumEntries : Nat := 30000

/-- Size in bytes of a single fixed index record (storage.go line 121). -/
def entrySize : Nat := 32

/-- Offset at which the payload heap starts, 1 MiB (storage.go line 123). -/
def entryFileOffset : Nat := 1 <<< 20

/-- Initial size of an entry file, 4 MiB (storage.go line 125). -/
def entryFileSize : Nat := 4 * entryFileOffset

/-- Maximum size of an entry file, 1 GiB (storage.go line 127). -/
def entryFileMaxSize : Nat := 1 <<< 30

/-- Go `uint64` subtraction `a - b` (wraps modulo 2^64). -/
def usub (a b : Nat) : Nat := (2 ^ 64 + a % 2 ^ 64 - b % 2 ^ 64) % 2 ^ 64

/-- The in-memory form of one fixed-size index record: the Go struct
`entry` (storage.go lines 239-244).  `typ` models the field
`Type raftpb.EntryType`, which is a Go `int32`; the other fields are
`uint64`. -/
structure Entry where
  term : Nat
  index : Nat
  dataOffset : Nat
  typ : Int
deriving DecidableEq, Repr

/-- The all-zero index record; a slot holding it is an empty slot. -/
def zeroEntry : Entry := ⟨0, 0, 0, 0⟩

/-- Go conversion `uint64(t)` of an `int32` value `t`: two's-complement
reinterpretation (sign extension), used by `entry.Bytes` on the Type field. -/
def encTyp (t : Int) : Nat := (t % (2 : Int) ^ 64).toNat

/-- Go conversion `raftpb.EntryType(x)` of a `uint64` value `x`: truncation
to 32 bits reinterpreted as a signed `int32`, used by `entryFromBytes`. -/
def decTyp (x : Nat) : Int :=
  if x % 2 ^ 32 < 2 ^ 31 then ((x % 2 ^ 32 : Nat) : Int)
  else ((x % 2 ^ 32 : Nat) : Int) - 2 ^ 32

/-- `binary.BigEndian.PutUint64`: the eight bytes of `x`, most significant
first (only the low 64 bits of the model value are observed, as in Go). -/
def putU64 (x : Nat) : List Nat :=
  [x / 2 ^ 56 % 256, x / 2 ^ 48 % 256, x / 2 ^ 40 % 256, x / 2 ^ 32 % 256,
   x / 2 ^ 24 % 256, x / 2 ^ 16 % 256, x / 2 ^ 8 % 256, x % 256]

/-- `binary.BigEndian.Uint64(b)`: read the first eight bytes of `b` as a
big-endian integer.  Go would panic on a shorter slice; every call site in
the source guards the length, and the fallback 0 here is unreachable. -/
def getU64 : List Nat → Nat
  | b0 :: b1 :: b2 :: b3 :: b4 :: b5 :: b6 :: b7 :: _ =>
      b0 * 2 ^ 56 + b1 * 2 ^ 48 + b2 * 2 ^ 40 + b3 * 2 ^ 32 +
      b4 * 2 ^ 24 + b5 * 2 ^ 16 + b6 * 2 ^ 8 + b7
  | _ => 0

/-- `entry.Bytes` (storage.go lines 246-257): the 32-byte index record,
big-endian `term[0..8)`, `index[8..16)`, `dataOffset[16..24)`,
`type[24..32)`. -/
def entryBytes (e : Entry) : List Nat :=
  putU64 e.term ++ putU64 e.index ++ putU64 e.dataOffset ++ putU64 (encTyp e.typ)

/-- `entryFromBytes` (storage.go lines 258-268): fails when fewer than 32
bytes are supplied, otherwise decodes the four big-endian fields from the
first 32 bytes. -/
def entryFromBytes (b : List Nat) : Option Entry :=
  if b.length < entrySize then none
  else some ⟨getU64 b, getU64 (b.drop 8), getU64 (b.drop 16),
             decTyp (getU64 (b.drop 24))⟩

/-- One log file: the Go struct `entryFile` (storage.go lines 270-276).
`path` is the file name it was created under, `firstIndex` the cached index
of its first entry, and the memory-mapped contents are modelled as the byte
function `mmap` together with `mmapLen`, the length of the Go `mmap` slice
used for slice-bounds checks (a nil mmap is modelled as length 0). -/
structure entryFile where
  path : String
  firstIndex : Nat
  mmapLen : Nat
  mmap : Nat → Nat

/-- Read `len` bytes of a mapped region starting at offset `off`. -/
def readBytes (m : Nat → Nat) (off len : Nat) : List Nat :=
  (List.range len).map (fun k => m (off + k))

/-- `entryFile.getEntry` (storage.go lines 343-347): decode the 32-byte
record at `mmap[idx*32 : idx*32+32]`.  The Go slice expression panics when
it reaches past the mapped length (this also covers the `int` cast
overflowing for huge `idx`, which panics with a negative index). -/
def entryFile.getEntry (ef : entryFile) (idx : Nat) : Except GoErr Entry :=
  if idx * entrySize + entrySize ≤ ef.mmapLen then
    match entryFromBytes (readBytes ef.mmap (idx * entrySize) entrySize) with
    | some e => .ok e
    | none => .error .generic
  else .error .panicked

/-- The Go struct `entryLog` (storage.go lines 351-368).  The current
`z.Buffer` is modelled by `currentLen` (the buffer's `Len()`, the write
position, starting at `entryFileOffset`) and `currentData` (its bytes).
In the source the tail entryFile created by `openEntryLog` shares the
buffer's memory (`buf.BytesFromStart()`), while a tail created by `rotate`
has a nil mmap; `sharedTail` records whether the last element of `files`
aliases `currentData`, so writes through the buffer are mirrored into it
exactly when the source's aliasing would make them visible there. -/
structure entryLog where
  files : List entryFile
  currentLen : Nat
  currentData : Nat → Nat
  entryIndex : Nat
  lastIndex : Nat
  sharedTail : Bool

/-- `entryLog.FirstIndex` (storage.go lines 652-657): the first file's
cached first-index, or 0 when no file exists. -/
def entryLog.FirstIndex (l : entryLog) : Nat :=
  match l.files with
  | [] => 0
  | f :: _ => f.firstIndex

/-- `entryLog.LastIndex` (storage.go lines 659-661): the cached value. -/
def entryLog.LastIndex (l : entryLog) : Nat := l.lastIndex

/-- `sort.Search(len(files), fun i => files[i].firstIndex >= idx)`
(storage.go lines 519-521 and 667-669): for a file list sorted by
first-index — which `getEntryFiles` establishes — the binary search returns
the least position whose first-index is ≥ `idx`, or `len(files)` when there
is none. -/
def searchGE (files : List entryFile) (idx : Nat) : Nat :=
  match files.findIdx? (fun f => decide (idx ≤ f.firstIndex)) with
  | some k => k
  | none => files.length

/-- `entryLog.Term` (storage.go lines 663-688).  Mirrors the source exactly:
`l.files[fileIdx]` is an out-of-range access (panic) when the search found
no file; when the looked-up file's first-index is not `idx`, the source
reads `l.files[fileIdx-1]`, which for `fileIdx == 0` is a negative-index
panic; and an error from the slot read in that branch is swallowed into
`(0, nil)` (storage.go line 685). -/
def entryLog.Term (l : entryLog) (idx : Nat) : Except GoErr Nat :=
  let fileIdx := searchGE l.files idx
  match l.files.get? fileIdx with
  | none => .error .panicked
  | some f =>
    if f.firstIndex == idx then
      match f.getEntry 0 with
      | .error er => .error er
      | .ok e => .ok e.term
    else if fileIdx == 0 then .error .panicked
    else
      match l.files.get? (fileIdx - 1) with
      | none => .error .panicked
      | some ef =>
        let diff := usub idx ef.firstIndex
        if 2 ^ 63 ≤ diff then .error .panicked
        else
          match ef.getEntry diff with
          | .error _ => .ok 0
          | .ok e => .ok e.term

/-- The file-name filter used when scanning a directory (`getEntryFiles`,
storage.go lines 316-324): `strings.HasSuffix(path, ".ent")` — only paths
whose last four characters are ".ent" are taken as entry files (modelled on
the path's character list). -/
def entFileFilter (path : String) : Bool :=
  decide (path.data.drop (path.data.length - 4) = ".ent".data)

/-- The name the initial entry file is created under when no file exists
(`openEntryLog`, storage.go line 384): `fmt.Sprintf("%d.ent", 1)`. -/
def initialEntFileName : String := "1.ent"

/-- The name `entryLog.rotate` gives a new file (storage.go line 483):
`fmt.Sprintf("%d", firstIndex)` — the decimal first index with no suffix. -/
def rotateFileName (firstIndex : Nat) : String := toString firstIndex

/-- The naming scheme the specification prescribes for every entry file
(spec section 6, "`<first-index>.ent` — one per entry file, named by its
first entry's index as a decimal integer").  Spec-derived definition, kept
separate so it can be compared with the source's `rotateFileName`. -/
def specEntFileName (firstIndex : Nat) : String := toString firstIndex ++ ".ent"

/-- Overwrite `bs.length` bytes of the byte function `f` starting at `off`. -/
def writeFun (f : Nat → Nat) (off : Nat) (bs : List Nat) : Nat → Nat :=
  fun k => if off ≤ k ∧ k < off + bs.length then bs.getD (k - off) 0 else f k

/-- Replace the mmap contents of the last (tail) file of the list. -/
def setTailMmap : List entryFile → (Nat → Nat) → List entryFile
  | [], _ => []
  | [f], m => [{ f with mmap := m }]
  | f :: g :: rest, m => f :: setTailMmap (g :: rest) m

/-- A write through the current `z.Buffer`.  It updates the buffer bytes
and, when the tail entryFile aliases the buffer's memory, the tail's mmap
view as well (same memory in the source). -/
def entryLog.writeCurrent (l : entryLog) (off : Nat) (bs : List Nat) : entryLog :=
  let nd := writeFun l.currentData off bs
  { l with
    currentData := nd,
    files := if l.sharedTail then setTailMmap l.files nd else l.files }

/-- `entryLog.rotate` (storage.go lines 481-499): open a fresh buffer
(write position back at `entryFileOffset`, zero contents — `zeroOut` on the
fresh zero buffer changes nothing), reset `entryIndex`, and append a new
`entryFile{path, firstIndex}` to `files`.  The new entryFile is created
with a nil mmap (storage.go line 493), modelled as `mmapLen = 0`, and the
source never links it to the new buffer, so `sharedTail` becomes false. -/
def entryLog.rotate (l : entryLog) (firstIndex : Nat) : entryLog :=
  { l with
    files := l.files ++ [⟨rotateFileName firstIndex, firstIndex, 0, fun _ => 0⟩],
    currentLen := entryFileOffset,
    currentData := fun _ => 0,
    entryIndex := 0,
    sharedTail := false }

/-- `raftpb.Entry`, the record exchanged with Raft: Term, Index, Type,
Data.  `typ` is the `int32`-valued `raftpb.EntryType`. -/
structure RaftEntry where
  term : Nat
  index : Nat
  typ : Int
  data : List Nat
deriving DecidableEq, Repr

/-- `sovRaft` from the gogo-protobuf generated code of `raftpb`:
`(bits.Len64(x|1) + 6) / 7`, the number of base-128 varint bytes of `x`,
written as the equivalent comparison ladder (for `x < 2^(7k)` the bit
length of `x|1` is at most `7k`, giving `k` varint bytes). -/
def sovRaft (x : Nat) : Nat :=
  if x < 2 ^ 7 then 1 else if x < 2 ^ 14 then 2 else if x < 2 ^ 21 then 3
  else if x < 2 ^ 28 then 4 else if x < 2 ^ 35 then 5 else if x < 2 ^ 42 then 6
  else if x < 2 ^ 49 then 7 else if x < 2 ^ 56 then 8 else if x < 2 ^ 63 then 9
  else 10

/-- `raftpb.Entry.Size()` from the generated code:
`1+sov(uint64(Type)) + 1+sov(Term) + 1+sov(Index)` plus, when Data is not
nil, `1+len(Data)+sov(len(Data))`.  In every code path modelled here Data
comes from a (possibly empty but non-nil) slice of an mmap, so the Data
field is always counted. -/
def RaftEntry.size (e : RaftEntry) : Nat :=
  1 + sovRaft (encTyp e.typ) + 1 + sovRaft e.term + 1 + sovRaft e.index
    + 1 + e.data.length + sovRaft e.data.length

/-- One iteration step of `entryLog.AddEntries` (storage.go lines 614-642):
rotate when the tail is full; if the payload is non-empty, allocate it at
the buffer's write position (`SliceAllocateOffset`) and record that offset;
then write the 32-byte record — at byte offset `entryIndex`, not
`entryIndex * entrySize`, exactly as the source does (the acknowledged TODO
at line 633) — advance `entryIndex` and set `lastIndex` to this entry's
index.  No slot is ever cleared and no file is ever deleted. -/
def entryLog.addEntry (l : entryLog) (re : RaftEntry) : Except GoErr entryLog :=
  let l := if maxNumEntries ≤ l.entryIndex then l.rotate re.index else l
  let off := if 0 < re.data.length then l.currentLen else 0
  let l := if 0 < re.data.length then
      { l.writeCurrent l.currentLen re.data with currentLen := l.currentLen + re.data.length }
    else l
  let e : Entry := ⟨re.term, re.index, off, re.typ⟩
  if l.entryIndex + entrySize ≤ entryFileSize then
    let l := l.writeCurrent l.entryIndex (entryBytes e)
    .ok { l with entryIndex := l.entryIndex + 1, lastIndex := e.index }
  else .error .generic

/-- `entryLog.AddEntries` (storage.go lines 613-644): fold `addEntry` over
the batch, stopping at the first error. -/
def entryLog.AddEntries (l : entryLog) : List RaftEntry → Except GoErr entryLog
  | [] => .ok l
  | re :: rest =>
    match l.addEntry re with
    | .error er => .error er
    | .ok l2 => l2.AddEntries rest

/-- `entryLog.DiscardFiles` (storage.go lines 646-650): the body is a TODO
comment ("delete all the files below the first file with a first index less
than or equal to snapshotIndex") followed by `return nil` — it deletes
nothing and returns no error. -/
def entryLog.DiscardFiles (l : entryLog) (_snapshotIndex : Nat) : entryLog × Option GoErr :=
  (l, none)

/-- The `for lo < hi && fileID < len(l.files)` loop of `entryLog.allEntries`
(storage.go lines 565-608), one Go iteration per unit of fuel; callers pass
`hi + files.length + 1` fuel, which exceeds the Go loop's iteration count
(every iteration increments `lo` (< hi) or `fileID` (< files.length)), so
the fuel-exhausted branch is never taken.  Per iteration: skip to the next
file after `maxNumEntries` slots; stop when the slot offset exceeds
`lastIndex` (line 575); read the slot; take as payload
`mmap[DataOffset : current.Len()-entryFileOffset]` — checking the Go slice
bounds — and, when the slot is not the file's first, re-slice to
`mmap[DataOffset : next.DataOffset]`; add the serialized size and stop
BEFORE appending once it exceeds `maxSize` (lines 602-605). -/
def entryLog.allEntriesLoop (l : entryLog) (hi maxSize : Nat) :
    Nat → Nat → Nat → Nat → List RaftEntry → Except GoErr (List RaftEntry)
  | 0, _, _, _, es => .ok es
  | fuel + 1, lo, fileID, sz, es =>
    if lo < hi ∧ fileID < l.files.length then
      match l.files.get? fileID with
      | none => .error .panicked
      | some file =>
        if usub lo file.firstIndex == maxNumEntries then
          l.allEntriesLoop hi maxSize fuel lo (fileID + 1) sz es
        else
          let diff := usub lo file.firstIndex
          if l.lastIndex < diff then .ok es
          else if 2 ^ 63 ≤ diff then .error .panicked
          else
            match file.getEntry diff with
            | .error er => .error er
            | .ok e =>
              let hwm := l.currentLen - entryFileOffset
              if e.dataOffset ≤ hwm ∧ hwm ≤ file.mmapLen then
                if diff == 0 then
                  let re : RaftEntry :=
                    ⟨e.term, e.index, e.typ,
                     readBytes file.mmap e.dataOffset (hwm - e.dataOffset)⟩
                  let sz2 := sz + re.size
                  if maxSize < sz2 then .ok es
                  else l.allEntriesLoop hi maxSize fuel (lo + 1) fileID sz2 (es ++ [re])
                else
                  match file.getEntry (diff + 1) with
                  | .error er => .error er
                  | .ok ne =>
                    if e.dataOffset ≤ ne.dataOffset ∧ ne.dataOffset ≤ file.mmapLen then
                      let re : RaftEntry :=
                        ⟨e.term, e.index, e.typ,
                         readBytes file.mmap e.dataOffset (ne.dataOffset - e.dataOffset)⟩
                      let sz2 := sz + re.size
                      if maxSize < sz2 then .ok es
                      else l.allEntriesLoop hi maxSize fuel (lo + 1) fileID sz2 (es ++ [re])
                    else .error .panicked
              else .error .panicked
    else .ok es

/-- `entryLog.allEntries` (storage.go lines 513-611).  Mirrors the source:
error when `lo` is below the log's first index; binary-search the file
list, then `file := l.files[fileID]` — an out-of-range access (panic) when
the search found nothing; when that file's first-index is not `lo`, assert
`fileID != 0` (panic otherwise), step one file back, read the entry for
`lo` there, assert its index is `lo`, materialize it (payload re-sliced to
the successor's offset since the slot is never the file's first in this
branch), and return just it if its size already exceeds `maxSize` (line
561); then run the main loop. -/
def entryLog.allEntries (l : entryLog) (lo hi maxSize : Nat) : Except GoErr (List RaftEntry) :=
  if lo < l.FirstIndex then .error .generic
  else
    let fileID := searchGE l.files lo
    let fuel := hi + l.files.length + 1
    match l.files.get? fileID with
    | none => .error .panicked
    | some file =>
      if file.firstIndex == lo then
        l.allEntriesLoop hi maxSize fuel lo fileID 0 []
      else if fileID == 0 then .error .panicked
      else
        match l.files.get? (fileID - 1) with
        | none => .error .panicked
        | some file2 =>
          let diff := usub lo file2.firstIndex
          if 2 ^ 63 ≤ diff then .error .panicked
          else
            match file2.getEntry diff with
            | .error er => .error er
            | .ok e =>
              if e.index == lo then
                if e.dataOffset ≤ file2.mmapLen then
                  if diff == 0 then
                    let re : RaftEntry :=
                      ⟨e.term, e.index, e.typ,
                       readBytes file2.mmap e.dataOffset (file2.mmapLen - e.dataOffset)⟩
                    if maxSize < re.size then .ok [re]
                    else l.allEntriesLoop hi maxSize fuel (lo + 1) (fileID - 1) re.size [re]
                  else
                    match file2.getEntry (diff + 1) with
                    | .error er => .error er
                    | .ok ne =>
                      if e.dataOffset ≤ ne.dataOffset ∧ ne.dataOffset ≤ file2.mmapLen then
                        let re : RaftEntry :=
                          ⟨e.term, e.index, e.typ,
                           readBytes file2.mmap e.dataOffset (ne.dataOffset - e.dataOffset)⟩
                        if maxSize < re.size then .ok [re]
                        else l.allEntriesLoop hi maxSize fuel (lo + 1) (fileID - 1) re.size [re]
                      else .error .panicked
                else .error .panicked
              else .error .panicked

/-- `raftpb.HardState`: the (term, vote, commit) triple. -/
structure HardState where
  term : Nat
  vote : Nat
  commit : Nat
deriving DecidableEq, Repr

/-- `raftpb.Snapshot` restricted to the metadata this layer inspects:
its index and term (the conf-state and data play no role in any claim). -/
structure Snapshot where
  index : Nat
  term : Nat
deriving DecidableEq, Repr

/-- `raft.IsEmptyHardState`: equality with the zero hard state. -/
def IsEmptyHardState (hs : HardState) : Bool :=
  hs.term == 0 && hs.vote == 0 && hs.commit == 0

/-- `raft.IsEmptySnap`: a snapshot is empty iff its metadata index is 0. -/
def IsEmptySnap (s : Snapshot) : Bool := s.index == 0

/-- The Go struct `metaFile` (storage.go lines 130-132): the decoded state
of the 4 KiB `wal.meta` page — raft id, hard-state record, snapshot
record.  An absent record is the zero value, which is what the source's
readers return for a zero-length slot. -/
structure metaFile where
  raftId : Nat
  hardState : HardState
  snapshot : Snapshot
deriving DecidableEq, Repr

/-- `metaFile.StoreHardState` (storage.go lines 180-190): a nil or empty
hard state is ignored; any other hard state is marshalled and written over
the hard-state slot unconditionally — no comparison with the currently
stored term is made. -/
def metaFile.StoreHardState (m : metaFile) (hs : Option HardState) : metaFile :=
  match hs with
  | none => m
  | some h => if IsEmptyHardState h then m else { m with hardState := h }

/-- The Go struct `DiskStorage` (storage.go lines 84-98) restricted to the
state its modelled operations touch: the meta page, the entry log, the
`snapshotKey` slot of the `sync.Map` cache, and the badger keyspace under
this store's entry-key prefix, modelled as the key-ordered list of the
`raftpb.Entry` records stored in it. -/
structure DiskStorage where
  meta : metaFile
  entries : entryLog
  cacheSnapshot : Option Snapshot
  db : List RaftEntry

/-- `DiskStorage.Snapshot` (storage.go lines 997-1006): the cached snapshot
when present and non-empty, else the meta page's. -/
def DiskStorage.Snapshot (w : DiskStorage) : Snapshot :=
  match w.cacheSnapshot with
  | some s => if IsEmptySnap s then w.meta.snapshot else s
  | none => w.meta.snapshot

/-- `DiskStorage.FirstIndex` (storage.go lines 919-943): when a non-empty
snapshot is stored, `snapshot.Metadata.Index + 1`; otherwise delegate to
`entries.FirstIndex()`. -/
def DiskStorage.FirstIndex (w : DiskStorage) : Nat :=
  if IsEmptySnap w.Snapshot then w.entries.FirstIndex
  else w.Snapshot.index + 1

/-- The iterator loop of the badger-backed `DiskStorage.allEntries`
(storage.go lines 1213-1236), over the remaining key-ordered entries from
the seek position.  Per item: `x.AssertTrue(e.Index > lastIndex &&
e.Index >= lo)` (panic on failure), stop at a key ≥ `EntryKey(hi)`, add the
serialized size, stop before appending when the size exceeds `maxSize` and
at least one entry has been produced. -/
def dbIterLoop (lo hi maxSize : Nat) :
    List RaftEntry → Nat → Nat → Bool → Except GoErr (List RaftEntry)
  | [], _, _, _ => .ok []
  | e :: rest, lastIdx, size, first =>
    if lastIdx < e.index ∧ lo ≤ e.index then
      if hi ≤ e.index then .ok []
      else
        let size2 := size + e.size
        if maxSize < size2 ∧ first = false then .ok []
        else
          match dbIterLoop lo hi maxSize rest e.index size2 false with
          | .ok es => .ok (e :: es)
          | .error er => .error er
    else .error .panicked

/-- The badger-backed `DiskStorage.allEntries` (storage.go lines
1182-1240): when exactly one entry is wanted (`hi-lo == 1`, uint64
arithmetic), a point lookup of key `lo` (badger's not-found error when it
is absent); otherwise iterate from the first key ≥ `lo`. -/
def DiskStorage.allEntries (w : DiskStorage) (lo hi maxSize : Nat) :
    Except GoErr (List RaftEntry) :=
  if usub hi lo == 1 then
    match w.db.find? (fun e => e.index == lo) with
    | some e => .ok [e]
    | none => .error .notFound
  else
    dbIterLoop lo hi maxSize (w.db.dropWhile (fun e => decide (e.index < lo))) 0 0 true

/-- `DiskStorage.Entries` (storage.go lines 1245-1259): `Compacted` when
`lo` is below `entries.FirstIndex()` (the entry log's own first index — the
snapshot is not consulted), `Unavailable` when `hi > LastIndex()+1`, and
otherwise the result of the badger-backed `allEntries`. -/
def DiskStorage.Entries (w : DiskStorage) (lo hi maxSize : Nat) :
    Except GoErr (List RaftEntry) :=
  if lo < w.entries.FirstIndex then .error .compacted
  else if w.entries.LastIndex + 1 < hi then .error .unavailable
  else w.allEntries lo hi maxSize

/-- Iterated `metaFile.StoreHardState` over a sequence of hard-state
writes, as performed by successive `DiskStorage.Save` calls (storage.go
lines 1332-1346). -/
def storeHardStates (m : metaFile) : List (Option HardState) → metaFile
  | [] => m
  | h :: rest => storeHardStates (m.StoreHardState h) rest

/-- The discipline Raft guarantees its storage: every non-empty hard state
handed to `Save` carries a term at least the currently stored one. -/
def disciplinedWrites (m : metaFile) : List (Option HardState) → Bool
  | [] => true
  | h :: rest =>
    (match h with
     | none => true
     | some hh => IsEmptyHardState hh || decide (m.hardState.term ≤ hh.term))
    && disciplinedWrites (m.StoreHardState h) rest

/-! Concrete states used by the counterexample and witness theorems. -/

/-- The entry log produced by `openEntryLog` on an empty directory
(storage.go lines 370-426): one file named "1.ent" whose `firstIndex` field
is never set (the struct literal at line 415 omits it, so it is 0 — the
TODO at line 414), whose mmap is `buf.BytesFromStart()` (shared with the
current buffer, zero-initialized, `entryFileSize` bytes); `entryIndex` 0,
`lastIndex` 0 (`openEntryLog` never sets it). -/
def freshOpenLog : entryLog :=
  { files := [⟨initialEntFileName, 0, entryFileSize, fun _ => 0⟩],
    currentLen := entryFileOffset,
    currentData := fun _ => 0,
    entryIndex := 0,
    lastIndex := 0,
    sharedTail := true }

/-- Entries 1 and 2 (term 1, payloads "a" and "bb") as a Raft append. -/
def c1Batch1 : List RaftEntry := [⟨1, 1, 0, [97]⟩, ⟨1, 2, 0, [98, 98]⟩]

/-- The Raft overwrite of index 1 with a term-2 entry (payload "x"). -/
def c1Overwrite : List RaftEntry := [⟨2, 1, 0, [120]⟩]

/-- The log state after appending entries 1-2 to a freshly opened log and
then appending the overwriting entry of index 1. -/
def c1State : Except GoErr entryLog :=
  (freshOpenLog.AddEntries c1Batch1).bind (fun l => l.AddEntries c1Overwrite)

/-- An index region holding the given records in consecutive 32-byte slots
starting at offset 0, all remaining bytes zero — the on-disk layout the
spec prescribes for a file's index region. -/
def storeSlots (es : List Entry) : Nat → Nat :=
  fun k => ((es.map entryBytes).flatten).getD k 0

/-- A well-formed entry file named "1.ent" with first-index 1, holding
exactly the two entries (term 1, index 1) and (term 1, index 2) with empty
payloads. -/
def cleanFile : entryFile :=
  ⟨"1.ent", 1, entryFileSize, storeSlots [⟨1, 1, 0, 0⟩, ⟨1, 2, 0, 0⟩]⟩

/-- A well-formed single-file log: `cleanFile` as shared tail, next free
slot 2, last index 2, empty payload heap. -/
def cleanLog : entryLog :=
  { files := [cleanFile],
    currentLen := entryFileOffset,
    currentData := cleanFile.mmap,
    entryIndex := 2,
    lastIndex := 2,
    sharedTail := true }

/-- A rotated tail file with first-index 3 (named by `rotate`, nil mmap). -/
def rotatedTailFile : entryFile := ⟨rotateFileName 3, 3, 0, fun _ => 0⟩

/-- A two-file log: `cleanFile` (entries 1-2) followed by the rotated tail
holding entry 3; the first file's last entry index is 2. -/
def twoFileLog : entryLog :=
  { files := [cleanFile, rotatedTailFile],
    currentLen := entryFileOffset,
    currentData := fun _ => 0,
    entryIndex := 1,
    lastIndex := 3,
    sharedTail := false }

/-- A meta page with raft id 7 and zero (absent) hard state and snapshot. -/
def metaZero : metaFile := ⟨7, ⟨0, 0, 0⟩, ⟨0, 0⟩⟩

/-- A single-file entry log whose cached last index is 20. -/
def log4 : entryLog :=
  { files := [⟨"1.ent", 1, entryFileSize, storeSlots [⟨1, 1, 0, 0⟩]⟩],
    currentLen := entryFileOffset,
    currentData := fun _ => 0,
    entryIndex := 20,
    lastIndex := 20,
    sharedTail := true }

/-- A store with a non-empty snapshot at index 10 in the meta page, entry
files still starting at first-index 1 with last index 20, and a badger
keyspace holding the entry of index 5. -/
def w4 : DiskStorage :=
  { meta := ⟨7, ⟨0, 0, 0⟩, ⟨10, 2⟩⟩,
    entries := log4,
    cacheSnapshot := none,
    db := [⟨1, 5, 0, []⟩] }

/-- A store with a non-empty snapshot at index 5 and the clean one-file
log. -/
def w7 : DiskStorage :=
  { meta := ⟨7, ⟨0, 0, 0⟩, ⟨5, 2⟩⟩,
    entries := cleanLog,
    cacheSnapshot := none,
    db := [] }

/-! Theorems. -/

theorem getU64_putU64 (x : Nat) (h : x < 2 ^ 64) : getU64 (putU64 x) = x := by
  simp only [putU64, getU64]
  omega

theorem encTyp_lt (t : Int) : encTyp t < 2 ^ 64 := by
  unfold encTyp
  omega

theorem decTyp_encTyp (t : Int) (h1 : -2 ^ 31 ≤ t) (h2 : t < 2 ^ 31) :
    decTyp (encTyp t) = t := by
  unfold decTyp encTyp
  split <;> omega

theorem getU64_put_append (x : Nat) (rest : List Nat) (h : x < 2 ^ 64) :
    getU64 (putU64 x ++ rest) = x := by
  simp only [putU64, List.cons_append, List.nil_append, getU64]
  omega

theorem entryBytes_length (e : Entry) : (entryBytes e).length = 32 := rfl

/-- C9: the 32-byte index-slot encoding is a bijection on entries: for every
entry whose `uint64` fields are in range and whose type is in `int32` range,
`entry.Bytes` produces exactly 32 bytes laid out as big-endian u64 fields
term[0..8), index[8..16), payload-offset[16..24), type[24..32), and
`entryFromBytes` applied to those bytes returns the original entry. -/
theorem C9_slot_encoding_bijection (e : Entry)
    (h1 : e.term < 2 ^ 64) (h2 : e.index < 2 ^ 64) (h3 : e.dataOffset < 2 ^ 64)
    (h4 : -2 ^ 31 ≤ e.typ) (h5 : e.typ < 2 ^ 31) :
    (entryBytes e).length = 32
    ∧ entryBytes e =
        putU64 e.term ++ putU64 e.index ++ putU64 e.dataOffset ++ putU64 (encTyp e.typ)
    ∧ entryFromBytes (entryBytes e) = some e := by
  refine ⟨rfl, rfl, ?_⟩
  obtain ⟨t, i, d, y⟩ := e
  unfold entryFromBytes
  rw [if_neg (by rw [entryBytes_length]; decide)]
  simp only [entryBytes]
  simp only [Option.some.injEq, Entry.mk.injEq]
  refine ⟨?_, ?_, ?_, ?_⟩
  · exact getU64_put_append t (putU64 i ++ (putU64 d ++ putU64 (encTyp y))) h1
  · exact getU64_put_append i (putU64 d ++ putU64 (encTyp y)) h2
  · exact getU64_put_append d (putU64 (encTyp y)) h3
  · show decTyp (getU64 (putU64 (encTyp y))) = y
    rw [getU64_putU64 _ (encTyp_lt y)]
    exact decTyp_encTyp y h4 h5

/-- Witness for C9 at the concrete entry (term 3, index 7, payload offset
1048576, type 1). -/
theorem C9_slot_encoding_bijection_witness :
    ((3 : Nat) < 2 ^ 64 ∧ (7 : Nat) < 2 ^ 64 ∧ (1048576 : Nat) < 2 ^ 64
      ∧ -2 ^ 31 ≤ (1 : Int) ∧ (1 : Int) < 2 ^ 31)
    ∧ entryFromBytes (entryBytes ⟨3, 7, 1048576, 1⟩) = some ⟨3, 7, 1048576, 1⟩ :=
  ⟨⟨by decide, by decide, by decide, by decide, by decide⟩,
   (C9_slot_encoding_bijection ⟨3, 7, 1048576, 1⟩ (by decide) (by decide) (by decide)
     (by decide) (by decide)).2.2⟩

/-- C1: refuted on the code — `AddEntries` performs no truncation.  On a
freshly opened log holding entries 1-2, appending the overwriting entry
(index 1, term 2) leaves `lastIndex = 1` as the claim says, but the next
free slot grows from 2 to 3 (nothing is removed; the entry is written after
the previously persisted ones), and the subsequent
`entries(e.index+1, ∞, ∞)` read is a Go panic (out-of-range file access),
not the empty list the claim requires. -/
theorem C1_no_truncation :
    c1State.map entryLog.entryIndex = .ok 3
    ∧ c1State.map entryLog.lastIndex = .ok 1
    ∧ c1State.bind (fun l => l.allEntries 2 1000 1000000) = .error .panicked :=
  ⟨rfl, rfl, rfl⟩

/-- C2: refuted on the code — `entryLog.Term` implements no
Compacted/Unavailable contract.  On the clean one-file log with last index
2, `Term 3` (above `lastIndex`) is a Go panic (`l.files[fileIdx]` with
`fileIdx = len(files)`), not the Unavailable error; no snapshot bound is
consulted anywhere in the function (`Term 1` returns the stored term). -/
theorem C2_term_error_contract :
    cleanLog.LastIndex = 2
    ∧ cleanLog.Term 3 = .error .panicked
    ∧ cleanLog.Term 1 = .ok 1 :=
  ⟨rfl, rfl, rfl⟩

/-- C3: refuted on the code — the size cutoff in `entryLog.allEntries` is
checked BEFORE appending (storage.go lines 602-605), so it also drops the
first entry of the call: on the clean log holding entries 1 and 2 (each of
serialized size 8), `allEntries 1 3 5` returns the empty list even though
the range is non-empty, while `allEntries 1 3 1000` returns both entries. -/
theorem C3_size_cutoff_drops_first :
    cleanLog.allEntries 1 3 5 = .ok []
    ∧ cleanLog.allEntries 1 3 1000 = .ok [⟨1, 1, 0, []⟩, ⟨1, 2, 0, []⟩]
    ∧ (⟨1, 1, 0, []⟩ : RaftEntry).size = 8 :=
  ⟨rfl, rfl, rfl⟩

/-- C5: refuted on the code — `DiscardFiles` is a stub (storage.go lines
646-650) and deletes nothing: on a two-file log whose first file's last
entry index is 2 (< the snapshot index 3) and is not the tail, discarding
at snapshot index 3 returns the state unchanged with both files present. -/
theorem C5_discard_noop :
    twoFileLog.DiscardFiles 3 = (twoFileLog, none)
    ∧ twoFileLog.files.length = 2
    ∧ (cleanFile.getEntry 1).map Entry.index = .ok 2
    ∧ twoFileLog.lastIndex = 3 :=
  ⟨rfl, rfl, rfl, rfl⟩

/-- C8: refuted on the code — `rotate` names new files by the bare decimal
first index with no ".ent" suffix (storage.go line 483), which does not
match the specified `<first-index>.ent` scheme and is rejected by the very
filter the open path uses to find entry files, so a rotated file cannot be
recovered from its name on reopen. -/
theorem C8_rotate_naming :
    rotateFileName 30001 = "30001"
    ∧ specEntFileName 30001 = "30001.ent"
    ∧ rotateFileName 30001 ≠ specEntFileName 30001
    ∧ entFileFilter (rotateFileName 30001) = false
    ∧ entFileFilter initialEntFileName = true :=
  ⟨rfl, rfl, by decide, by decide, by decide⟩

/-- C10: refuted on the code — `entryLog.Term` is not total on in-bounds
indices: on the clean one-file log with first index 1 and last index 2, the
lookup of index 2 (strictly greater than every file's first-index) makes
`sort.Search` return `len(files)` and `l.files[fileIdx]` is an out-of-range
access, a Go panic. -/
theorem C10_term_inbounds_panic :
    cleanLog.FirstIndex = 1
    ∧ cleanLog.LastIndex = 2
    ∧ cleanLog.Term 2 = .error .panicked :=
  ⟨rfl, rfl, rfl⟩

theorem dbIterLoop_no_raft_error (lo hi maxSize : Nat) :
    ∀ (db : List RaftEntry) (lastIdx size : Nat) (first : Bool),
      dbIterLoop lo hi maxSize db lastIdx size first ≠ .error .compacted
      ∧ dbIterLoop lo hi maxSize db lastIdx size first ≠ .error .unavailable := by
  intro db
  induction db with
  | nil =>
    intro lastIdx size first
    simp [dbIterLoop]
  | cons e rest ih =>
    intro lastIdx size first
    simp only [dbIterLoop]
    split
    · split
      · simp
      · split
        · simp
        · have h2 := ih e.index (size + e.size) false
          cases h : dbIterLoop lo hi maxSize rest e.index (size + e.size) false with
          | ok es => simp [h]
          | error er =>
            rw [h] at h2
            simpa [h] using h2
    · simp

theorem allEntries_no_raft_error (w : DiskStorage) (lo hi maxSize : Nat) :
    w.allEntries lo hi maxSize ≠ .error .compacted
    ∧ w.allEntries lo hi maxSize ≠ .error .unavailable := by
  unfold DiskStorage.allEntries
  split
  · cases h : w.db.find? (fun e => e.index == lo) with
    | some e => simp [h]
    | none => simp [h]
  · exact dbIterLoop_no_raft_error lo hi maxSize _ 0 0 true

/-- C4 counterexample: the claim's Compacted condition is false on the
code.  In store `w4` a non-empty snapshot at index 10 is stored, so the
claim requires `entries(5, 6, 1000)` to be the Compacted error (5 < 11);
the code compares `lo` against the entry log's own first index (1) instead
and returns the stored entry. -/
theorem C4_counterexample :
    IsEmptySnap w4.meta.snapshot = false
    ∧ w4.FirstIndex = 11
    ∧ (5 : Nat) < 11
    ∧ w4.Entries 5 6 1000 = .ok [⟨1, 5, 0, []⟩] :=
  ⟨rfl, rfl, by decide, rfl⟩

/-- C4 as amended: `Entries` fails Compacted exactly when `lo` is below the
ENTRY LOG's first index (the first file's first-index — the snapshot is not
consulted), fails Unavailable exactly when (otherwise) `hi` exceeds
`last_index + 1`, and otherwise delegates to the badger-backed `allEntries`
reader. -/
theorem C4_bounds_check (w : DiskStorage) (lo hi maxSize : Nat) :
    (w.Entries lo hi maxSize = .error .compacted ↔ lo < w.entries.FirstIndex)
    ∧ (w.Entries lo hi maxSize = .error .unavailable ↔
        (w.entries.FirstIndex ≤ lo ∧ w.entries.LastIndex + 1 < hi))
    ∧ (w.entries.FirstIndex ≤ lo → hi ≤ w.entries.LastIndex + 1 →
        w.Entries lo hi maxSize = w.allEntries lo hi maxSize) := by
  have hno := allEntries_no_raft_error w lo hi maxSize
  unfold DiskStorage.Entries
  by_cases h1 : lo < w.entries.FirstIndex
  · rw [if_pos h1]
    refine ⟨by simp [h1], ?_, ?_⟩
    · constructor
      · intro he
        simp at he
      · intro hc
        omega
    · intro hle
      omega
  · rw [if_neg h1]
    by_cases h2 : w.entries.LastIndex + 1 < hi
    · rw [if_pos h2]
      refine ⟨by simp [h1], ?_, ?_⟩
      · constructor
        · intro _
          omega
        · intro _
          rfl
      · intro _ hle
        omega
    · rw [if_neg h2]
      refine ⟨?_, ?_, fun _ _ => rfl⟩
      · constructor
        · intro he
          exact absurd he hno.1
        · intro hc
          omega
      · constructor
        · intro he
          exact absurd he hno.2
        · intro hc
          omega

/-- Witness for the amended C4, delegating branch, at store `w4` with the
range [5, 6) and maxSize 1000. -/
theorem C4_bounds_check_witness :
    w4.entries.FirstIndex ≤ 5 ∧ (6 : Nat) ≤ w4.entries.LastIndex + 1
    ∧ w4.Entries 5 6 1000 = w4.allEntries 5 6 1000 :=
  ⟨by decide, by decide, (C4_bounds_check w4 5 6 1000).2.2 (by decide) (by decide)⟩

/-- C6 counterexample: `StoreHardState` makes no term comparison.  Writing
the hard state (term 5, vote 1, commit 10) and then (term 3, vote 1,
commit 12) leaves stored term 3, strictly below the previously written 5. -/
theorem C6_counterexample :
    ((metaZero.StoreHardState (some ⟨5, 1, 10⟩)).StoreHardState
        (some ⟨3, 1, 12⟩)).hardState.term
      < (metaZero.StoreHardState (some ⟨5, 1, 10⟩)).hardState.term := by
  decide

/-- C6 as amended: the persisted hard state's term never decreases PROVIDED
each non-empty hard state submitted carries a term at least the then-stored
one (the discipline the Raft caller guarantees); `StoreHardState` itself
ignores empty hard states and overwrites with any non-empty one
unconditionally. -/
theorem C6_hard_state_monotonic (m : metaFile) (ops : List (Option HardState))
    (hd : disciplinedWrites m ops = true) :
    m.hardState.term ≤ (storeHardStates m ops).hardState.term := by
  induction ops generalizing m with
  | nil => simp [storeHardStates]
  | cons h rest ih =>
    simp only [storeHardStates]
    simp only [disciplinedWrites, Bool.and_eq_true] at hd
    obtain ⟨hhead, htail⟩ := hd
    refine le_trans ?_ (ih _ htail)
    cases h with
    | none => exact le_refl _
    | some hh =>
      simp only [metaFile.StoreHardState]
      split
      · exact le_refl _
      · rename_i hemp
        simp only [Bool.or_eq_true, decide_eq_true_eq] at hhead
        rcases hhead with hc | hc
        · exact absurd hc (by simpa using hemp)
        · exact hc

/-- Witness for the amended C6: a disciplined write sequence (terms 5, an
empty write, then 7) starting from the zero meta page. -/
theorem C6_hard_state_monotonic_witness :
    disciplinedWrites metaZero [some ⟨5, 1, 10⟩, none, some ⟨7, 2, 20⟩] = true
    ∧ metaZero.hardState.term ≤
        (storeHardStates metaZero [some ⟨5, 1, 10⟩, none, some ⟨7, 2, 20⟩]).hardState.term :=
  ⟨by decide, C6_hard_state_monotonic metaZero _ (by decide)⟩

/-- C7: confirmed.  When the snapshot cache is coherent with the meta page
(it is only ever filled by `setSnapshot`, which writes the meta page first)
and the file list is sorted by first-index (as `getEntryFiles` establishes),
`DiskStorage.FirstIndex` is `snapshot.index + 1` whenever a non-empty
snapshot is stored, and otherwise the first-index of the earliest entry
file when any exists, and 0 when none does. -/
theorem C7_first_index (w : DiskStorage)
    (hcoh : w.cacheSnapshot = none ∨ w.cacheSnapshot = some w.meta.snapshot)
    (hsort : w.entries.files.Pairwise (fun a b => a.firstIndex ≤ b.firstIndex)) :
    (IsEmptySnap w.meta.snapshot = false → w.FirstIndex = w.meta.snapshot.index + 1)
    ∧ (IsEmptySnap w.meta.snapshot = true →
        (w.entries.files = [] → w.FirstIndex = 0)
        ∧ (∀ f fs, w.entries.files = f :: fs → w.FirstIndex = f.firstIndex)
        ∧ (∀ g ∈ w.entries.files, w.FirstIndex ≤ g.firstIndex)) := by
  have hsnap : w.Snapshot = w.meta.snapshot := by
    unfold DiskStorage.Snapshot
    rcases hcoh with h | h
    · rw [h]
    · rw [h]
      simp
  constructor
  · intro hne
    unfold DiskStorage.FirstIndex
    rw [hsnap, hne]
    simp
  · intro hemp
    have hfi : w.FirstIndex = w.entries.FirstIndex := by
      unfold DiskStorage.FirstIndex
      rw [hsnap, hemp]
      simp
    refine ⟨?_, ?_, ?_⟩
    · intro hnil
      rw [hfi]
      unfold entryLog.FirstIndex
      rw [hnil]
    · intro f fs hcons
      rw [hfi]
      unfold entryLog.FirstIndex
      rw [hcons]
    · intro g hg
      rw [hfi]
      unfold entryLog.FirstIndex
      cases hfl : w.entries.files with
      | nil =>
        rw [hfl] at hg
        cases hg
      | cons f fs =>
        rw [hfl] at hg hsort
        rcases List.mem_cons.mp hg with h | h
        · rw [h]
        · exact (List.pairwise_cons.mp hsort).1 g h

/-- Witness for C7 at store `w7` (non-empty snapshot at index 5, one entry
file): the store-level first index is 6. -/
theorem C7_first_index_witness :
    (w7.cacheSnapshot = none ∨ w7.cacheSnapshot = some w7.meta.snapshot)
    ∧ IsEmptySnap w7.meta.snapshot = false
    ∧ w7.FirstIndex = w7.meta.snapshot.index + 1 :=
  ⟨Or.inl rfl, rfl,
   (C7_first_index w7 (Or.inl rfl) (by simp [w7, cleanLog])).1 rfl⟩

end Raftwal
